import Mathlib

/-!
Shallow embedding of the temporal synchronization and replay engine of the
MadsPipeline repository (files `src/madspipeline/lsl_integration.py` and
`src/madspipeline/main_window.py`), together with theorems settling the
frozen claims about it.

Timestamps and channel values (Python floats) are modelled as rationals;
the environment-supplied effects (LSL stream resolution, per-pull sample
delivery, clocks, JSON parsing of wire strings) are passed as explicit
inputs so that every definition is a pure, executable function of its
inputs, exactly mirroring the branching of the Python source.
-/

namespace MadsPi

/-- Python substring test helper: does `hay` start with `pat`
(`str.startswith` semantics at the character level)? -/
def leadsWith : List Char → List Char → Bool
  | [], _ => true
  | _ :: _, [] => false
  | a :: pat, b :: hay => a == b && leadsWith pat hay

/-- Python `pat in hay` substring containment on character lists. -/
def hasSub (pat : List Char) : List Char → Bool
  | [] => pat.isEmpty
  | c :: rest => leadsWith pat (c :: rest) || hasSub pat rest

/-- A resolved LSL stream handle, as exposed by `pylsl` stream info:
`name()`, `type()`, `channel_count()`, `source_id()`. -/
structure StreamDesc where
  name : String
  stype : String
  channelCount : Nat
  sourceId : String
  deriving Repr, DecidableEq

/-- The per-stream info dict stored by `LSLRecorder.start_recording`
(keys `name`, `type`, `channel_count`, `source_id`, `session_id`). -/
structure StreamInfoRec where
  name : String
  stype : String
  channelCount : Nat
  sourceId : String
  sessionId : String
  deriving Repr, DecidableEq

/-- Python `str.lower()`, character by character (ASCII-relevant here). -/
def lowerStr (s : String) : String := ⟨s.data.map Char.toLower⟩

/-- `lsl_integration.py` line 200:
`lower_filters = [f.lower() for f in stream_name_filters if f]` —
empty (falsy) pattern strings are dropped, the rest lowercased. -/
def lower_filters (fs : List String) : List String :=
  (fs.filter (fun f => !f.isEmpty)).map lowerStr

/-- `lsl_integration.py` lines 202-204: a stream name matches when some
lowered pattern equals or is contained in the lowered name
(`any(f == lname or f in lname for f in lower_filters)`). -/
def stream_matches (lfs : List String) (name : String) : Bool :=
  let lname := lowerStr name
  lfs.any (fun f => f == lname || hasSub f.data lname.data)

/-- `lsl_integration.py` lines 197-207: the name-based stream filter inside
`LSLRecorder.start_recording`.  `none` models `stream_name_filters=None`;
a falsy (empty) list also keeps every stream. -/
def filter_streams (streams : List StreamDesc) (stream_name_filters : Option (List String)) :
    List StreamDesc :=
  match stream_name_filters with
  | none => streams
  | some fs =>
    if fs.isEmpty then streams
    else streams.filter (fun s => stream_matches (lower_filters fs) s.name)

/-- A decoded JSON value, the result of a successful `json.loads` on a wire
string.  The parser itself is environment-supplied (passed as a
`String → Option Json` argument below). -/
inductive Json where
  | null : Json
  | bool : Bool → Json
  | num : ℚ → Json
  | str : String → Json
  | arr : List Json → Json
  | obj : List (String × Json) → Json
  deriving Repr

/-- The raw `data` field of a pulled LSL sample: a list of strings
(`channel_format='string'` streams such as bridge events) or a list of
numbers (`channel_format='float32'` streams such as mouse tracking). -/
inductive SampleData where
  | strs : List String → SampleData
  | nums : List ℚ → SampleData
  deriving Repr

/-- Python truthiness of the pulled `sample` list (`if sample:` at
`lsl_integration.py` line 252): `None` is modelled by `Option.none` at the
pull site, and an empty list is falsy. -/
def SampleData.isTruthy : SampleData → Bool
  | .strs l => !l.isEmpty
  | .nums l => !l.isEmpty

/-- One entry of `LSLRecorder.recorded_data`, built at
`lsl_integration.py` lines 262-272. -/
structure RecordedSample where
  timestamp : ℚ
  relativeTime : ℚ
  data : SampleData
  streamIndex : Nat
  streamInfoR : StreamInfoRec
  sessionId : String
  recordedAt : String
  clockOffset : ℚ
  localTimeWhenRecorded : ℚ
  deriving Repr

/-- The `data` field of a persisted sample: either the decoded JSON value
(bridge events whose wire string parsed) or the raw channel list. -/
inductive PData where
  | fromJson : Json → PData
  | raw : SampleData → PData
  deriving Repr

/-- One entry of the persisted `lsl_samples` array, built by
`LSLRecorder.save_to_file` (`lsl_integration.py` lines 316-371).
`rawData = none` models the branch (lines 360-368) that emits no
`raw_data` key. -/
structure ParsedSample where
  timestamp : ℚ
  relativeTime : ℚ
  streamName : String
  streamType : String
  pdata : PData
  rawData : Option SampleData
  clockOffset : ℚ
  localTimeWhenRecorded : ℚ
  deriving Repr

/-- The constant `synchronization_info` block written by `save_to_file`. -/
structure SyncInfo where
  syncMethod : String
  clockOffsetType : String
  note : String
  deriving Repr, DecidableEq

/-- The persisted JSON file written for a session
(`lsl_integration.py` lines 373-384, and the degraded structure of
`main_window.py` lines 1968-1977).  `errorMarker` models the presence of
the `'error'` key; `synchronizationInfo` its block (absent in the
degraded file). -/
structure SessionFile where
  sessionId : String
  streamInfoL : List StreamInfoRec
  sessionStartTime : Option ℚ
  totalSamples : Nat
  lslSamples : List ParsedSample
  synchronizationInfo : Option SyncInfo
  errorMarker : Option String
  deriving Repr

/-- The mutable state of an `LSLRecorder` (`lsl_integration.py`
lines 171-176).  An open inlet is modelled by the descriptor of the
stream it was opened on. -/
structure RecorderState where
  sessionId : String
  recordedData : List RecordedSample
  inlets : List StreamDesc
  streamInfoL : List StreamInfoRec
  isRecording : Bool
  sessionStartTime : Option ℚ
  deriving Repr

/-- `LSLRecorder.__init__`: empty recorder for a session. -/
def initRecorder (sessionId : String) : RecorderState :=
  { sessionId := sessionId
    recordedData := []
    inlets := []
    streamInfoL := []
    isRecording := false
    sessionStartTime := none }

/-- The stream info dict stored per inlet at `lsl_integration.py`
lines 219-225. -/
def mkStreamInfo (s : StreamDesc) (sessionId : String) : StreamInfoRec :=
  { name := s.name
    stype := s.stype
    channelCount := s.channelCount
    sourceId := s.sourceId
    sessionId := sessionId }

/-- `LSLRecorder.start_recording` (`lsl_integration.py` lines 178-235).
The environment's `resolve_streams(wait_time)` result and the
`local_clock()` reading are passed in as `streams` and `now`.  Early
returns: already recording (line 184), no streams resolved (line 193),
no stream surviving the name filter (line 209). -/
def start_recording (st : RecorderState) (streams : List StreamDesc)
    (stream_name_filters : Option (List String)) (now : ℚ) : RecorderState :=
  if st.isRecording then st
  else if streams.isEmpty then st
  else
    let filtered := filter_streams streams stream_name_filters
    if filtered.isEmpty then st
    else
      { st with
        inlets := st.inlets ++ filtered
        streamInfoL := st.streamInfoL ++ filtered.map (fun s => mkStreamInfo s st.sessionId)
        sessionStartTime := some now
        isRecording := true }

/-- `LSLRecorder.stop_recording` (`lsl_integration.py` lines 291-303):
clears the recording flag and closes (clears) all inlets. -/
def stop_recording (st : RecorderState) : RecorderState :=
  { st with isRecording := false, inlets := [] }

/-- The environment's answer to one non-blocking `inlet.pull_sample`
(`lsl_integration.py` lines 247-271): the channel values and producer
timestamp, together with the `inlet.time_correction()` reading, the
`local_clock()` reading and the `datetime.now().isoformat()` string taken
while recording that pull. -/
structure PullResult where
  data : SampleData
  timestamp : ℚ
  clockOffset : ℚ
  localTime : ℚ
  recordedAt : String
  deriving Repr

/-- `relative_time = timestamp - self.session_start_time if
self.session_start_time else 0.0` (`lsl_integration.py` line 254),
with Python float truthiness: `None` and `0.0` both select `0.0`. -/
def relTime (sessionStartTime : Option ℚ) (timestamp : ℚ) : ℚ :=
  match sessionStartTime with
  | none => 0
  | some s => if s = 0 then 0 else timestamp - s

/-- The recorded-sample dict appended at `lsl_integration.py`
lines 262-273 for inlet index `i`. -/
def mkRecSample (st : RecorderState) (i : Nat) (p : PullResult) : RecordedSample :=
  { timestamp := p.timestamp
    relativeTime := relTime st.sessionStartTime p.timestamp
    data := p.data
    streamIndex := i
    streamInfoR := st.streamInfoL.getD i ⟨"", "", 0, "", ""⟩
    sessionId := st.sessionId
    recordedAt := p.recordedAt
    clockOffset := p.clockOffset
    localTimeWhenRecorded := p.localTime }

/-- The delivery for inlet `i` in one tick: `pulls` holds, per inlet
index, `none` when the pull raised or timed out and `some p` when a
sample arrived.  Indices beyond `pulls` deliver nothing. -/
def pullAt (pulls : List (Option PullResult)) (i : Nat) : Option PullResult :=
  match pulls.get? i with
  | some (some p) => some p
  | _ => none

/-- The sample recorded for inlet `i` during one tick, if any:
a delivered, truthy sample is appended (lines 252-273); a failed or empty
pull contributes nothing (`continue`). -/
def tickEntry (st : RecorderState) (pulls : List (Option PullResult)) (i : Nat) :
    Option RecordedSample :=
  match pullAt pulls i with
  | some p => if p.data.isTruthy then some (mkRecSample st i p) else none
  | none => none

/-- All samples appended during one tick, in inlet order
(`for i, inlet in enumerate(self.inlets)` at line 242). -/
def tickSamples (st : RecorderState) (pulls : List (Option PullResult)) :
    List RecordedSample :=
  (List.range st.inlets.length).filterMap (tickEntry st pulls)

/-- `LSLRecorder.record_sample` (`lsl_integration.py` lines 237-281):
one tick.  Does nothing unless recording; otherwise appends the tick's
samples to `recorded_data`. -/
def record_sample (st : RecorderState) (pulls : List (Option PullResult)) : RecorderState :=
  if !st.isRecording then st
  else { st with recordedData := st.recordedData ++ tickSamples st pulls }

/-- A whole recording run: the periodic driver invokes `record_sample`
once per tick, each tick with its own per-inlet deliveries. -/
def runTicks (st : RecorderState) (ticks : List (List (Option PullResult))) : RecorderState :=
  ticks.foldl record_sample st

/-- The sequence of samples the environment delivered on inlet `i`
across a run, in tick order (what inlet `i`'s `pull_sample` calls
returned, before the truthiness check). -/
def pullSeq (i : Nat) (ticks : List (List (Option PullResult))) : List PullResult :=
  ticks.filterMap (fun pulls => pullAt pulls i)

/-- The recorded samples belonging to stream (inlet) `i`, in append
order. -/
def streamSamples (i : Nat) (rd : List RecordedSample) : List RecordedSample :=
  rd.filter (fun s => s.streamIndex == i)

/-- One entry of the persisted `lsl_samples` array: the parse of a
recorded sample by `LSLRecorder.save_to_file` (`lsl_integration.py`
lines 316-371).  `jload` is the environment's `json.loads`
(`some` on success, `none` on `JSONDecodeError`). -/
def parseSample (jload : String → Option Json) (s : RecordedSample) : ParsedSample :=
  match s.data with
  | .strs (d0 :: rest) =>
    match jload d0 with
    | some parsed =>
      { timestamp := s.timestamp
        relativeTime := s.relativeTime
        streamName := s.streamInfoR.name
        streamType := s.streamInfoR.stype
        pdata := .fromJson parsed
        rawData := some (.strs (d0 :: rest))
        clockOffset := s.clockOffset
        localTimeWhenRecorded := s.localTimeWhenRecorded }
    | none =>
      { timestamp := s.timestamp
        relativeTime := s.relativeTime
        streamName := s.streamInfoR.name
        streamType := s.streamInfoR.stype
        pdata := .raw (.strs (d0 :: rest))
        rawData := some (.strs (d0 :: rest))
        clockOffset := s.clockOffset
        localTimeWhenRecorded := s.localTimeWhenRecorded }
  | .nums (d0 :: rest) =>
      { timestamp := s.timestamp
        relativeTime := s.relativeTime
        streamName := s.streamInfoR.name
        streamType := s.streamInfoR.stype
        pdata := .raw (.nums (d0 :: rest))
        rawData := some (.nums (d0 :: rest))
        clockOffset := s.clockOffset
        localTimeWhenRecorded := s.localTimeWhenRecorded }
  | d =>
      { timestamp := s.timestamp
        relativeTime := s.relativeTime
        streamName := s.streamInfoR.name
        streamType := s.streamInfoR.stype
        pdata := .raw d
        rawData := none
        clockOffset := s.clockOffset
        localTimeWhenRecorded := s.localTimeWhenRecorded }

/-- `LSLRecorder.save_to_file` (`lsl_integration.py` lines 305-393),
restricted to its output content (the written JSON object); the
`additional_tracking_data` argument is `None` at the call site modelled
here (`main_window.py` line 1956). -/
def save_to_file (st : RecorderState) (jload : String → Option Json) : SessionFile :=
  { sessionId := st.sessionId
    streamInfoL := st.streamInfoL
    sessionStartTime := st.sessionStartTime
    totalSamples := st.recordedData.length
    lslSamples := st.recordedData.map (parseSample jload)
    synchronizationInfo := some
      { syncMethod := "LSL_local_clock"
        clockOffsetType := "offset between local and remote device clocks (seconds)"
        note := "Use clock_offset from each sample for post-hoc synchronization with EmotiBit" }
    errorMarker := none }

/-- `SessionReviewWindow._load_session_data`, LSL part
(`main_window.py` lines 2279-2295): the loaded review data is
`lsl_data.get('lsl_samples', [])`. -/
def load_session_data (f : SessionFile) : List ParsedSample :=
  f.lslSamples

/-- The minimal degraded file structure written by
`EmbeddedWebpageSessionWindow._save_session_data` when `save_to_file`
raised (`main_window.py` lines 1966-1977). -/
def minimal_lsl_data (sessionId : String) (streamInfoL : List StreamInfoRec)
    (sessionStartTime : Option ℚ) (err : String) : SessionFile :=
  { sessionId := sessionId
    streamInfoL := streamInfoL
    sessionStartTime := sessionStartTime
    totalSamples := 0
    lslSamples := []
    synchronizationInfo := none
    errorMarker := some err }

/-- `EmbeddedWebpageSessionWindow._save_session_data`, LSL part
(`main_window.py` lines 1950-1984): the file content that ends up on
disk.  `fullSaveOk` is the environment outcome of the full
`save_to_file` attempt; on failure (exception `err`) the degraded
structure is written instead. -/
def save_session_data (st : RecorderState) (jload : String → Option Json)
    (fullSaveOk : Bool) (err : String) : SessionFile :=
  if fullSaveOk then save_to_file st jload
  else minimal_lsl_data st.sessionId st.streamInfoL st.sessionStartTime err

/-- A position value appended to the overlay trail/position result:
an element of a raw channel list or of a decoded JSON container. -/
inductive PVal where
  | num : ℚ → PVal
  | str : String → PVal
  | jval : Json → PVal
  deriving Repr

/-- Python `dict` lookup on a decoded JSON object's field list
(first binding wins). -/
def jlookup (key : String) : List (String × Json) → Option Json
  | [] => none
  | (k, v) :: rest => if k == key then some v else jlookup key rest

/-- The position extraction shared by `_get_mouse_position_at_time`
(lines 2892-2900) and `_get_mouse_trail` (lines 2916-2921) of
`main_window.py`: a `data` that is a list of length ≥ 2 yields
`(data[0], data[1])`; a dict with a `mouse_position` list/tuple of
length ≥ 2 yields its first two entries; anything else yields nothing. -/
def extractPos (s : ParsedSample) : Option (PVal × PVal) :=
  match s.pdata with
  | .raw (.nums (x :: y :: _)) => some (.num x, .num y)
  | .raw (.strs (a :: b :: _)) => some (.str a, .str b)
  | .fromJson (.arr (p :: q :: _)) => some (.jval p, .jval q)
  | .fromJson (.obj fields) =>
    match jlookup "mouse_position" fields with
    | some (.arr (p :: q :: _)) => some (.jval p, .jval q)
    | _ => none
  | _ => none

/-- Loop body of `_get_mouse_position_at_time` (`main_window.py`
lines 2880-2890): the accumulator carries the current `closest` sample
and its `min_diff`; `none` models the initial
`closest = None, min_diff = inf` state, under which the first matching
sample always wins. -/
def stepClosest (t : ℚ) (acc : Option (ParsedSample × ℚ)) (s : ParsedSample) :
    Option (ParsedSample × ℚ) :=
  if s.streamName == "MadsPipeline_MouseTracking" then
    let diff := |s.relativeTime - t|
    match acc with
    | none => some (s, diff)
    | some (c, m) => if diff < m then some (s, diff) else some (c, m)
  else acc

/-- The `closest` sample selected by `_get_mouse_position_at_time`. -/
def findClosest (lslData : List ParsedSample) (t : ℚ) : Option ParsedSample :=
  (lslData.foldl (stepClosest t) none).map Prod.fst

/-- `SessionReviewWindow._get_mouse_position_at_time` (`main_window.py`
lines 2878-2902). -/
def get_mouse_position_at_time (lslData : List ParsedSample) (t : ℚ) :
    Option (PVal × PVal) :=
  match findClosest lslData t with
  | some closest => extractPos closest
  | none => none

/-- `SessionReviewWindow._get_mouse_trail` (`main_window.py`
lines 2904-2924): positions of mouse-tracking samples with
`start_time <= relative_time <= end_time`, where
`start_time = max(0, time - duration)` and `end_time = time`. -/
def get_mouse_trail (lslData : List ParsedSample) (t duration : ℚ) : List (PVal × PVal) :=
  let startTime := max 0 (t - duration)
  let endTime := t
  lslData.filterMap (fun s =>
    if s.streamName == "MadsPipeline_MouseTracking"
        && decide (startTime ≤ s.relativeTime) && decide (s.relativeTime ≤ endTime) then
      extractPos s
    else none)

/-- The samples `_get_mouse_trail` selects (before position extraction):
mouse-tracking samples inside the clamped window, in arrival order. -/
def trailSamples (lslData : List ParsedSample) (t duration : ℚ) : List ParsedSample :=
  lslData.filter (fun s =>
    s.streamName == "MadsPipeline_MouseTracking"
      && decide (max 0 (t - duration) ≤ s.relativeTime)
      && decide (s.relativeTime ≤ t))

/-- Python `int()` on a float: truncation toward zero. -/
def pyInt (q : ℚ) : ℤ :=
  if 0 ≤ q then ⌊q⌋ else ⌈q⌉

/-- The video frame index computed by `SessionReviewWindow._update_overlay`
(`main_window.py` lines 2741-2742):
`int(current_time * fps)` then `max(0, min(., frame_count - 1))`. -/
def frame_number (currentTime fps : ℚ) (frameCount : ℤ) : ℤ :=
  max 0 (min (pyInt (currentTime * fps)) (frameCount - 1))

/-- Modelled from the spec (§4.5): `video_frame_index(fps) =
clamp(round(current_time * fps), 0, frame_count - 1)`, for comparison
with the code's `frame_number`. -/
def specVideoFrameIndex (currentTime fps : ℚ) (frameCount : ℤ) : ℤ :=
  max 0 (min (round (currentTime * fps)) (frameCount - 1))

/-- `EmbeddedWebpageSessionWindow._normalize_mouse_coordinates`
(`main_window.py` lines 1501-1537), with the reference size
(`target_window_size` or the current `web_view` geometry) passed in as
`refW`/`refH` and the `normalize_mouse_coordinates` setting as
`normFlag`. -/
def normalize_mouse_coordinates (normFlag : Bool) (x y refW refH : ℚ) : ℚ × ℚ :=
  if !normFlag then (x, y)
  else if 0 < refW ∧ 0 < refH then
    (max 0 (min 1 (x / refW)), max 0 (min 1 (y / refH)))
  else (x, y)

/-- The `tracking_data` dict consumed by
`LSLMouseTrackingStreamer.push_tracking_data`: `none` fields model
absent keys.  A present `mouse_position` is a numeric sequence (its
modelled form); a present `event_type` is a string. -/
structure TrackingData where
  mousePosition : Option (List ℚ)
  eventType : Option String
  deriving Repr

/-- `LSLMouseTrackingStreamer.push_tracking_data` (`lsl_integration.py`
lines 119-150), restricted to the channel list it pushes:
`[x, y, event_type]` with the event kind encoded as a float.  An absent
`mouse_position` defaults to `(0, 0)`; a sequence of fewer than two
components yields `x = y = 0`; an absent `event_type` defaults to the
empty string, which encodes to `0.0`. -/
def push_tracking_data (td : TrackingData) : List ℚ :=
  let mousePos := td.mousePosition.getD [0, 0]
  let x : ℚ := match mousePos with
    | a :: _ :: _ => a
    | _ => 0
  let y : ℚ := match mousePos with
    | _ :: b :: _ => b
    | _ => 0
  let eventTypeStr := td.eventType.getD ""
  let eventType : ℚ :=
    if eventTypeStr == "mouse_press" then 1
    else if eventTypeStr == "mouse_release" then 2
    else if eventTypeStr == "mouse_move" then 3
    else if eventTypeStr == "mouse_scroll" then 4
    else 0
  [x, y, eventType]

/-! ## Theorems settling the claims -/

/-- C1 counterexample: starting the recorder when stream resolution
returns no streams (first conjunct), or when no stream survives the name
filter (second conjunct), leaves `is_recording = False`: the recorder
does NOT transition to the Recording state, contrary to the claim. -/
theorem start_recording_no_streams_cex :
    (start_recording (initRecorder "s1") [] none 0).isRecording = false ∧
    (start_recording (initRecorder "s1")
        [⟨"MadsPipeline_MouseTracking", "Mouse", 3, "src1"⟩]
        (some ["bridge"]) 0).isRecording = false := by
  exact ⟨rfl, by decide⟩

/-- C1 amended: when resolution returns no streams, or no stream survives
filtering, `start_recording` returns early leaving the recorder NOT
recording and with zero inlets; `stop()` still completes (it is total and
merely clears the flag and inlets), and saving still yields a valid
zero-sample session file that loads to an empty sample list. -/
theorem start_recording_no_streams (sid : String) (streams : List StreamDesc)
    (filters : Option (List String)) (now : ℚ) (jload : String → Option Json)
    (h : streams = [] ∨ filter_streams streams filters = []) :
    (start_recording (initRecorder sid) streams filters now).isRecording = false ∧
    (start_recording (initRecorder sid) streams filters now).inlets = [] ∧
    (save_to_file (stop_recording
        (start_recording (initRecorder sid) streams filters now)) jload).totalSamples = 0 ∧
    load_session_data (save_to_file (stop_recording
        (start_recording (initRecorder sid) streams filters now)) jload) = [] := by
  have hst : start_recording (initRecorder sid) streams filters now = initRecorder sid := by
    rcases h with h | h
    · subst h; rfl
    · unfold start_recording
      rcases streams with _ | ⟨s0, rest⟩
      · simp [initRecorder]
      · simp [initRecorder, h]
  rw [hst]
  exact ⟨rfl, rfl, rfl, rfl⟩

/-- C1 witness: concrete instance with zero resolved streams. -/
theorem start_recording_no_streams_witness :
    (start_recording (initRecorder "s1") [] none 0).isRecording = false ∧
    (start_recording (initRecorder "s1") [] none 0).inlets = [] ∧
    (save_to_file (stop_recording
        (start_recording (initRecorder "s1") [] none 0)) (fun _ => none)).totalSamples = 0 ∧
    load_session_data (save_to_file (stop_recording
        (start_recording (initRecorder "s1") [] none 0)) (fun _ => none)) = [] :=
  start_recording_no_streams "s1" [] none 0 (fun _ => none) (Or.inl rfl)

/-- C6 counterexample: at `current_time = 1.9`, `fps = 1`,
`frame_count = 10`, the code computes `int(1.9) = 1` while the claimed
`clamp(round(1.9), 0, 9)` is `2`. -/
theorem frame_number_round_cex :
    frame_number (19/10) 1 10 = 1 ∧ specVideoFrameIndex (19/10) 1 10 = 2 := by
  constructor
  · show max 0 (min (pyInt ((19:ℚ)/10 * 1)) (10 - 1)) = 1
    norm_num [pyInt]
  · show max 0 (min (round ((19:ℚ)/10 * 1)) (10 - 1)) = 2
    norm_num [round_eq]

/-- C6 amended: for a non-negative playback position, positive fps and
positive frame count, the frame index equals
`clamp(floor(current_time * fps), 0, frame_count - 1)` (truncation, not
rounding) and always lies in `[0, frame_count - 1]`. -/
theorem frame_number_floor_clamp (currentTime fps : ℚ) (frameCount : ℤ)
    (hct : 0 ≤ currentTime) (hfps : 0 < fps) (hfc : 0 < frameCount) :
    frame_number currentTime fps frameCount =
      max 0 (min ⌊currentTime * fps⌋ (frameCount - 1)) ∧
    0 ≤ frame_number currentTime fps frameCount ∧
    frame_number currentTime fps frameCount ≤ frameCount - 1 := by
  have hprod : 0 ≤ currentTime * fps := mul_nonneg hct hfps.le
  have heq : frame_number currentTime fps frameCount =
      max 0 (min ⌊currentTime * fps⌋ (frameCount - 1)) := by
    unfold frame_number pyInt
    rw [if_pos hprod]
  refine ⟨heq, ?_, ?_⟩
  · rw [heq]; exact le_max_left 0 _
  · rw [heq]
    exact max_le (by omega) (min_le_right _ _)

/-- C6 witness: concrete instance at `current_time = 1.9`, `fps = 1`,
`frame_count = 10`. -/
theorem frame_number_floor_clamp_witness :
    frame_number (19/10) 1 10 = max 0 (min ⌊(19:ℚ)/10 * 1⌋ (10 - 1)) ∧
    0 ≤ frame_number (19/10) 1 10 ∧ frame_number (19/10) 1 10 ≤ 10 - 1 :=
  frame_number_floor_clamp (19/10) 1 10 (by norm_num) (by norm_num) (by norm_num)

/-- C8: when the full serialization attempt fails with error `err`, the
degraded save writes a file that still carries the session id, the stream
metadata, the session start timestamp, an empty sample sequence and the
explicit error marker, and that file loads to a valid zero-sample
record. -/
theorem save_session_data_degraded (st : RecorderState)
    (jload : String → Option Json) (err : String) :
    (save_session_data st jload false err).sessionId = st.sessionId ∧
    (save_session_data st jload false err).streamInfoL = st.streamInfoL ∧
    (save_session_data st jload false err).sessionStartTime = st.sessionStartTime ∧
    (save_session_data st jload false err).totalSamples = 0 ∧
    (save_session_data st jload false err).lslSamples = [] ∧
    (save_session_data st jload false err).errorMarker = some err ∧
    load_session_data (save_session_data st jload false err) = [] := by
  exact ⟨rfl, rfl, rfl, rfl, rfl, rfl, rfl⟩

/-- C9: with a positive reference frame, normalization returns the
clamped ratios, which lie in the unit square; with a non-positive
reference width or height, the absolute coordinates are returned as the
fallback. -/
theorem normalize_mouse_coordinates_c9 (x y refW refH : ℚ) :
    (0 < refW ∧ 0 < refH →
      normalize_mouse_coordinates true x y refW refH =
        (max 0 (min 1 (x / refW)), max 0 (min 1 (y / refH))) ∧
      0 ≤ (normalize_mouse_coordinates true x y refW refH).1 ∧
      (normalize_mouse_coordinates true x y refW refH).1 ≤ 1 ∧
      0 ≤ (normalize_mouse_coordinates true x y refW refH).2 ∧
      (normalize_mouse_coordinates true x y refW refH).2 ≤ 1) ∧
    (refW ≤ 0 ∨ refH ≤ 0 →
      normalize_mouse_coordinates true x y refW refH = (x, y)) := by
  constructor
  · intro h
    have heq : normalize_mouse_coordinates true x y refW refH =
        (max 0 (min 1 (x / refW)), max 0 (min 1 (y / refH))) := by
      unfold normalize_mouse_coordinates
      simp [h]
    refine ⟨heq, ?_, ?_, ?_, ?_⟩ <;> rw [heq]
    · exact le_max_left 0 _
    · exact max_le (by norm_num) (min_le_left _ _)
    · exact le_max_left 0 _
    · exact max_le (by norm_num) (min_le_left _ _)
  · intro h
    have hno : ¬ (0 < refW ∧ 0 < refH) := by
      rcases h with h | h
      · exact fun hc => absurd hc.1 (not_lt.mpr h)
      · exact fun hc => absurd hc.2 (not_lt.mpr h)
    unfold normalize_mouse_coordinates
    simp [hno]

/-- C9 witness: concrete instances of both branches. -/
theorem normalize_mouse_coordinates_c9_witness :
    normalize_mouse_coordinates true 5 7 10 10 =
      (max 0 (min 1 ((5:ℚ) / 10)), max 0 (min 1 ((7:ℚ) / 10))) ∧
    normalize_mouse_coordinates true 5 7 0 10 = (5, 7) :=
  ⟨((normalize_mouse_coordinates_c9 5 7 10 10).1 ⟨by norm_num, by norm_num⟩).1,
   (normalize_mouse_coordinates_c9 5 7 0 10).2 (Or.inl le_rfl)⟩

/-- C10: every pushed mouse-tracking sample has exactly three channels
`[x, y, event_kind]`; the event kind encodes `mouse_press ↦ 1.0`,
`mouse_release ↦ 2.0`, `mouse_move ↦ 3.0`, `mouse_scroll ↦ 4.0` and
anything else (or a missing `event_type`) to `0.0`; and `x`, `y` are the
first two components of `mouse_position` when it has at least two, and
`0.0` when it is absent or shorter. -/
theorem push_tracking_data_c10 (td : TrackingData) :
    (push_tracking_data td).length = 3 ∧
    (td.eventType = some "mouse_press" → (push_tracking_data td).getD 2 0 = 1) ∧
    (td.eventType = some "mouse_release" → (push_tracking_data td).getD 2 0 = 2) ∧
    (td.eventType = some "mouse_move" → (push_tracking_data td).getD 2 0 = 3) ∧
    (td.eventType = some "mouse_scroll" → (push_tracking_data td).getD 2 0 = 4) ∧
    (∀ s, td.eventType = some s →
      s ∉ (["mouse_press", "mouse_release", "mouse_move", "mouse_scroll"] : List String) →
      (push_tracking_data td).getD 2 0 = 0) ∧
    (td.eventType = none → (push_tracking_data td).getD 2 0 = 0) ∧
    ((td.mousePosition = none ∨ ∃ l, td.mousePosition = some l ∧ l.length < 2) →
      (push_tracking_data td).getD 0 0 = 0 ∧ (push_tracking_data td).getD 1 0 = 0) ∧
    (∀ a b rest, td.mousePosition = some (a :: b :: rest) →
      (push_tracking_data td).getD 0 0 = a ∧ (push_tracking_data td).getD 1 0 = b) := by
  obtain ⟨mp, et⟩ := td
  refine ⟨rfl, ?_, ?_, ?_, ?_, ?_, ?_, ?_, ?_⟩
  · rintro rfl; rfl
  · rintro rfl; rfl
  · rintro rfl; rfl
  · rintro rfl; rfl
  · rintro s rfl hs
    simp only [List.mem_cons, List.mem_singleton, not_or] at hs
    obtain ⟨h1, h2, h3, h4, _⟩ := hs
    simp only [push_tracking_data, Option.getD_some, beq_false_of_ne h1,
      beq_false_of_ne h2, beq_false_of_ne h3, beq_false_of_ne h4]
    rfl
  · rintro rfl; rfl
  · rintro (rfl | ⟨l, rfl, hl⟩)
    · exact ⟨rfl, rfl⟩
    · match l, hl with
      | [], _ => exact ⟨rfl, rfl⟩
      | [a], _ => exact ⟨rfl, rfl⟩
  · rintro a b rest rfl
    exact ⟨rfl, rfl⟩

/-- C10 witness: a concrete tracking dict with a two-component position
and a `mouse_move` event. -/
theorem push_tracking_data_c10_witness :
    (push_tracking_data ⟨some [3, 4], some "mouse_move"⟩).getD 2 0 = 1 + 1 + 1 ∧
    (push_tracking_data ⟨some [3, 4], some "mouse_move"⟩).getD 0 0 = 3 ∧
    (push_tracking_data ⟨some [3, 4], some "mouse_move"⟩).getD 1 0 = 4 :=
  have h := push_tracking_data_c10 ⟨some [3, 4], some "mouse_move"⟩
  ⟨by rw [h.2.2.2.1 rfl]; norm_num,
   ((h.2.2.2.2.2.2.2.2) 3 4 [] rfl).1,
   ((h.2.2.2.2.2.2.2.2) 3 4 [] rfl).2⟩

/-- `leadsWith` tests for a literal list prefix decomposition. -/
theorem leadsWith_iff (pat hay : List Char) :
    leadsWith pat hay = true ↔ ∃ r, hay = pat ++ r := by
  induction pat generalizing hay with
  | nil =>
    simp only [leadsWith, List.nil_append, true_iff]
    exact ⟨hay, rfl⟩
  | cons a pat ih =>
    cases hay with
    | nil =>
      simp only [leadsWith]
      constructor
      · intro h
        exact absurd h (by decide)
      · rintro ⟨r, h⟩
        exact List.noConfusion h
    | cons b hay =>
      simp only [leadsWith, Bool.and_eq_true, beq_iff_eq, ih, List.cons_append,
        List.cons.injEq]
      constructor
      · rintro ⟨rfl, r, rfl⟩
        exact ⟨r, rfl, rfl⟩
      · rintro ⟨r, rfl, rfl⟩
        exact ⟨rfl, r, rfl⟩

/-- `hasSub` tests for a literal substring decomposition, i.e. Python
`pat in hay`. -/
theorem hasSub_iff (pat hay : List Char) :
    hasSub pat hay = true ↔ ∃ l r, hay = l ++ pat ++ r := by
  induction hay with
  | nil =>
    cases pat with
    | nil => exact ⟨fun _ => ⟨[], [], rfl⟩, fun _ => rfl⟩
    | cons c cs =>
      simp only [hasSub, List.isEmpty_cons]
      constructor
      · intro h
        exact absurd h (by decide)
      · rintro ⟨l, r, h⟩
        rcases l with _ | ⟨x, xs⟩ <;> exact List.noConfusion h
  | cons c rest ih =>
    simp only [hasSub, Bool.or_eq_true, leadsWith_iff, ih]
    constructor
    · rintro (⟨r, h⟩ | ⟨l, r, rfl⟩)
      · exact ⟨[], r, by simpa using h⟩
      · exact ⟨c :: l, r, rfl⟩
    · rintro ⟨l, r, h⟩
      cases l with
      | nil => exact Or.inl ⟨r, by simpa using h⟩
      | cons x xs =>
        simp only [List.cons_append, List.cons.injEq] at h
        exact Or.inr ⟨xs, r, h.2⟩

/-- Characterization of the name match performed after empty patterns
are discarded and everything lowercased. -/
theorem stream_matches_iff (fs : List String) (name : String) :
    stream_matches (lower_filters fs) name = true ↔
      ∃ p ∈ fs, p ≠ "" ∧ (lowerStr p = lowerStr name ∨
        ∃ l r, (lowerStr name).data = l ++ (lowerStr p).data ++ r) := by
  unfold stream_matches lower_filters
  simp only [List.any_eq_true, List.mem_map, List.mem_filter, Bool.or_eq_true,
    beq_iff_eq, hasSub_iff, Bool.not_eq_true']
  constructor
  · rintro ⟨f, ⟨p, ⟨hp, hpe⟩, rfl⟩, hmatch⟩
    refine ⟨p, hp, ?_, hmatch⟩
    intro hcon
    rw [hcon] at hpe
    exact absurd hpe (by decide)
  · rintro ⟨p, hp, hpne, hmatch⟩
    refine ⟨lowerStr p, ⟨p, ⟨hp, ?_⟩, rfl⟩, hmatch⟩
    rcases h : p.isEmpty with _ | _
    · rfl
    · exact absurd (String.isEmpty_iff p |>.mp (by rw [h])) hpne

/-- C7 counterexample: filtering with the single pattern `""` keeps no
stream (the code discards falsy patterns and then no pattern matches),
even though every stream name case-insensitively contains the empty
pattern (second conjunct), so the claimed "kept iff the name contains
some pattern" fails, as does "the single-pattern scenario keeps all". -/
theorem filter_streams_empty_pattern_cex :
    filter_streams [⟨"MadsPipeline_BridgeEvents", "Markers", 1, "b"⟩] (some [""]) = [] ∧
    hasSub "".data (lowerStr "MadsPipeline_BridgeEvents").data = true := by
  exact ⟨by decide, by decide⟩

/-- C7 amended: empty-string patterns are discarded; with a non-empty
pattern list a stream is kept iff its lowercased name equals or contains
the lowercase of some non-empty pattern; a `None` filter (and likewise an
empty pattern list) keeps every stream; and the bridge/mouse scenario
keeps exactly the bridge stream.  Filtering is a pure function of its
inputs by construction. -/
theorem filter_streams_c7 (streams : List StreamDesc) (fs : List String)
    (s : StreamDesc) :
    (s ∈ filter_streams streams (some fs) ↔
      s ∈ streams ∧ (fs = [] ∨ ∃ p ∈ fs, p ≠ "" ∧
        (lowerStr p = lowerStr s.name ∨
          ∃ l r, (lowerStr s.name).data = l ++ (lowerStr p).data ++ r))) ∧
    filter_streams streams none = streams ∧
    filter_streams
        [⟨"MadsPipeline_BridgeEvents", "Markers", 1, "b"⟩,
         ⟨"MadsPipeline_MouseTracking", "Mouse", 3, "m"⟩] (some ["bridge"]) =
      [⟨"MadsPipeline_BridgeEvents", "Markers", 1, "b"⟩] := by
  refine ⟨?_, rfl, by decide⟩
  cases fs with
  | nil =>
    simp [filter_streams]
  | cons f0 fs' =>
    have hred : filter_streams streams (some (f0 :: fs')) =
        List.filter (fun s => stream_matches (lower_filters (f0 :: fs')) s.name) streams := by
      simp [filter_streams]
    rw [hred, List.mem_filter]
    constructor
    · rintro ⟨hmem, hmatch⟩
      exact ⟨hmem, Or.inr ((stream_matches_iff _ _).mp hmatch)⟩
    · rintro ⟨hmem, h | h⟩
      · exact absurd h (List.cons_ne_nil f0 fs')
      · exact ⟨hmem, (stream_matches_iff _ _).mpr h⟩

/-- Every branch of the save-time parse copies the timestamps and the
preserved synchronization fields unchanged. -/
theorem parseSample_preserves (jload : String → Option Json) (s : RecordedSample) :
    (parseSample jload s).timestamp = s.timestamp ∧
    (parseSample jload s).relativeTime = s.relativeTime ∧
    (parseSample jload s).clockOffset = s.clockOffset ∧
    (parseSample jload s).localTimeWhenRecorded = s.localTimeWhenRecorded ∧
    (parseSample jload s).streamName = s.streamInfoR.name := by
  rcases hs : s.data with l | l <;> rcases l with _ | ⟨d0, rest⟩
  · simp [parseSample, hs]
  · rcases hj : jload d0 with _ | j <;> simp [parseSample, hs, hj]
  · simp [parseSample, hs]
  · simp [parseSample, hs]

/-- C3: saving a session record and loading the file back yields the same
sample count (also recorded in `total_samples`), the same ordering (the
`i`-th loaded sample corresponds to the `i`-th recorded one, with equal
timestamps and relative times), and unchanged `clock_offset` and
`local_time_when_recorded` fields. -/
theorem save_load_roundtrip_c3 (st : RecorderState) (jload : String → Option Json) :
    (load_session_data (save_to_file st jload)).length = st.recordedData.length ∧
    (save_to_file st jload).totalSamples = st.recordedData.length ∧
    ∀ i (hi : i < st.recordedData.length)
      (hi' : i < (load_session_data (save_to_file st jload)).length),
      ((load_session_data (save_to_file st jload)).get ⟨i, hi'⟩).timestamp =
        (st.recordedData.get ⟨i, hi⟩).timestamp ∧
      ((load_session_data (save_to_file st jload)).get ⟨i, hi'⟩).relativeTime =
        (st.recordedData.get ⟨i, hi⟩).relativeTime ∧
      ((load_session_data (save_to_file st jload)).get ⟨i, hi'⟩).clockOffset =
        (st.recordedData.get ⟨i, hi⟩).clockOffset ∧
      ((load_session_data (save_to_file st jload)).get ⟨i, hi'⟩).localTimeWhenRecorded =
        (st.recordedData.get ⟨i, hi⟩).localTimeWhenRecorded := by
  have hload : load_session_data (save_to_file st jload) =
      st.recordedData.map (parseSample jload) := rfl
  refine ⟨by rw [hload, List.length_map], rfl, ?_⟩
  intro i hi hi'
  have hget : (load_session_data (save_to_file st jload)).get ⟨i, hi'⟩ =
      parseSample jload (st.recordedData.get ⟨i, hi⟩) := by
    simp only [hload, List.get_eq_getElem, List.getElem_map]
  rw [hget]
  obtain ⟨h1, h2, h3, h4, _⟩ := parseSample_preserves jload (st.recordedData.get ⟨i, hi⟩)
  exact ⟨h1, h2, h3, h4⟩

/-- C3 witness: a concrete one-sample record round-trips through
save/load with its preserved fields intact. -/
theorem save_load_roundtrip_c3_witness :
    (load_session_data (save_to_file
        { sessionId := "s1"
          recordedData := [{ timestamp := 10, relativeTime := 3, data := .nums [1, 2, 0]
                             streamIndex := 0
                             streamInfoR := ⟨"MadsPipeline_MouseTracking", "Mouse", 3, "m", "s1"⟩
                             sessionId := "s1", recordedAt := "t0"
                             clockOffset := 1/2, localTimeWhenRecorded := 11 }]
          inlets := []
          streamInfoL := [⟨"MadsPipeline_MouseTracking", "Mouse", 3, "m", "s1"⟩]
          isRecording := false
          sessionStartTime := some 7 } (fun _ => none))).length = 1 ∧
    (save_to_file
        { sessionId := "s1"
          recordedData := [{ timestamp := 10, relativeTime := 3, data := .nums [1, 2, 0]
                             streamIndex := 0
                             streamInfoR := ⟨"MadsPipeline_MouseTracking", "Mouse", 3, "m", "s1"⟩
                             sessionId := "s1", recordedAt := "t0"
                             clockOffset := 1/2, localTimeWhenRecorded := 11 }]
          inlets := []
          streamInfoL := [⟨"MadsPipeline_MouseTracking", "Mouse", 3, "m", "s1"⟩]
          isRecording := false
          sessionStartTime := some 7 } (fun _ => none)).totalSamples = 1 :=
  have h := save_load_roundtrip_c3
    { sessionId := "s1"
      recordedData := [{ timestamp := 10, relativeTime := 3, data := .nums [1, 2, 0]
                         streamIndex := 0
                         streamInfoR := ⟨"MadsPipeline_MouseTracking", "Mouse", 3, "m", "s1"⟩
                         sessionId := "s1", recordedAt := "t0"
                         clockOffset := 1/2, localTimeWhenRecorded := 11 }]
      inlets := []
      streamInfoL := [⟨"MadsPipeline_MouseTracking", "Mouse", 3, "m", "s1"⟩]
      isRecording := false
      sessionStartTime := some 7 } (fun _ => none)
  ⟨h.1, h.2.1⟩

/-- A concrete loaded mouse-tracking sample at relative time `rt`, with
position `(rt, rt + 1)`, used for concrete instances of the playback
claims. -/
def mouseSample (rt : ℚ) : ParsedSample :=
  { timestamp := rt
    relativeTime := rt
    streamName := "MadsPipeline_MouseTracking"
    streamType := "Mouse"
    pdata := .raw (.nums [rt, rt + 1, 0])
    rawData := some (.nums [rt, rt + 1, 0])
    clockOffset := 0
    localTimeWhenRecorded := rt }

/-- Loop fusion: filtering inside a `filterMap` equals filtering first. -/
theorem filterMap_guard_eq {α β : Type} (p : α → Bool) (f : α → Option β) (l : List α) :
    l.filterMap (fun a => if p a = true then f a else none) =
      (l.filter p).filterMap f := by
  induction l with
  | nil => rfl
  | cons a l ih =>
    by_cases h : p a = true <;>
      simp [List.filter_cons, List.filterMap_cons, h, ih]

/-- C5 counterexample: with `window = 0` and a sample at exactly
`relative_time = time`, the trail is non-empty (first conjunct), and a
sample whose `relative_time` lies in the claimed interval
`[time − window, time]` but below `0` is not returned because the code
clamps the window start at `0` (second conjunct: claimed member at
`relative_time = −1` for `time = 2`, `window = 4`, yet the result is
empty). -/
theorem get_mouse_trail_cex :
    get_mouse_trail [mouseSample 5] 5 0 = [(.num 5, .num (5 + 1))] ∧
    get_mouse_trail [mouseSample (-1), mouseSample 5] 2 4 = [] := by
  constructor <;>
    norm_num [get_mouse_trail, mouseSample, extractPos, List.filterMap_cons]

/-- C5 amended: the trail query returns exactly the mouse-tracking
samples with `relative_time ∈ [max(0, time − window), time]` (window
start clamped at zero), in arrival order (the selected samples form a
sublist of the record), mapped to their positions; with `window = 0` it
returns the samples at exactly `relative_time = time`, which need not be
empty.  The spec's positive scenario holds: over samples at
`{2.9, 3.5, 4.9, 5.0, 6.0}` with `time = 5, window = 2` exactly
`{3.5, 4.9, 5.0}` are returned in order. -/
theorem get_mouse_trail_c5 (lslData : List ParsedSample) (t w : ℚ) (s : ParsedSample) :
    (s ∈ trailSamples lslData t w ↔
      s ∈ lslData ∧ s.streamName = "MadsPipeline_MouseTracking" ∧
        max 0 (t - w) ≤ s.relativeTime ∧ s.relativeTime ≤ t) ∧
    (trailSamples lslData t w).Sublist lslData ∧
    get_mouse_trail lslData t w = (trailSamples lslData t w).filterMap extractPos ∧
    get_mouse_trail
        [mouseSample (29/10), mouseSample (35/10), mouseSample (49/10),
         mouseSample 5, mouseSample 6] 5 2 =
      [(.num (35/10), .num (35/10 + 1)), (.num (49/10), .num (49/10 + 1)),
       (.num 5, .num (5 + 1))] := by
  refine ⟨?_, List.filter_sublist _, ?_,
    by norm_num [get_mouse_trail, mouseSample, extractPos, List.filterMap_cons]⟩
  · unfold trailSamples
    rw [List.mem_filter]
    simp only [Bool.and_eq_true, beq_iff_eq, decide_eq_true_eq]
    tauto
  · unfold get_mouse_trail trailSamples
    exact filterMap_guard_eq _ extractPos lslData

/-- Samples of other streams do not affect the nearest-sample fold: the
fold over the record equals the fold over the mouse-tracking samples. -/
theorem foldl_stepClosest_filter (t : ℚ) (l : List ParsedSample)
    (acc : Option (ParsedSample × ℚ)) :
    l.foldl (stepClosest t) acc =
      (l.filter (fun x => x.streamName == "MadsPipeline_MouseTracking")).foldl
        (stepClosest t) acc := by
  induction l generalizing acc with
  | nil => rfl
  | cons a l ih =>
    by_cases h : (a.streamName == "MadsPipeline_MouseTracking") = true
    · rw [List.foldl_cons, List.filter_cons, if_pos h, List.foldl_cons]
      exact ih _
    · have hstep : stepClosest t acc a = acc := by
        unfold stepClosest
        rw [if_neg h]
      rw [List.foldl_cons, List.filter_cons, if_neg h, hstep]
      exact ih _

/-- Characterization of the nearest-sample fold over a list of
mouse-tracking samples, started from a current-closest accumulator: the
result is the earliest strict improvement — everything before the final
winner is strictly farther from the query time, everything after it at
least as far (the `diff < min_diff` update keeps the earlier sample on
ties). -/
theorem foldl_stepClosest_char (t : ℚ) (m : List ParsedSample) :
    ∀ c : ParsedSample,
    (∀ x ∈ m, (x.streamName == "MadsPipeline_MouseTracking") = true) →
    ∃ c', m.foldl (stepClosest t) (some (c, |c.relativeTime - t|)) =
        some (c', |c'.relativeTime - t|) ∧
      ((c' = c ∧ ∀ x ∈ m, |c.relativeTime - t| ≤ |x.relativeTime - t|) ∨
        ∃ pre post, m = pre ++ c' :: post ∧
          |c'.relativeTime - t| < |c.relativeTime - t| ∧
          (∀ x ∈ pre, |c'.relativeTime - t| < |x.relativeTime - t|) ∧
          (∀ x ∈ post, |c'.relativeTime - t| ≤ |x.relativeTime - t|)) := by
  induction m with
  | nil =>
    intro c _
    exact ⟨c, rfl, Or.inl ⟨rfl, by simp⟩⟩
  | cons s rest ih =>
    intro c hm
    have hs := hm s (List.mem_cons_self s rest)
    have hrest : ∀ x ∈ rest, (x.streamName == "MadsPipeline_MouseTracking") = true :=
      fun x hx => hm x (List.mem_cons_of_mem s hx)
    rw [List.foldl_cons]
    have hstep : stepClosest t (some (c, |c.relativeTime - t|)) s =
        if |s.relativeTime - t| < |c.relativeTime - t|
          then some (s, |s.relativeTime - t|) else some (c, |c.relativeTime - t|) := by
      unfold stepClosest
      rw [if_pos hs]
    by_cases hlt : |s.relativeTime - t| < |c.relativeTime - t|
    · rw [hstep, if_pos hlt]
      obtain ⟨c', hfold, hcase⟩ := ih s hrest
      refine ⟨c', hfold, Or.inr ?_⟩
      rcases hcase with ⟨rfl, hall⟩ | ⟨pre, post, hsplit, hlt2, hpre, hpost⟩
      · exact ⟨[], rest, rfl, hlt, by simp, hall⟩
      · refine ⟨s :: pre, post, by rw [hsplit, List.cons_append], hlt2.trans hlt, ?_, hpost⟩
        intro x hx
        rcases List.mem_cons.mp hx with rfl | hx
        · exact hlt2
        · exact hpre x hx
    · rw [hstep, if_neg hlt]
      obtain ⟨c', hfold, hcase⟩ := ih c hrest
      refine ⟨c', hfold, ?_⟩
      rcases hcase with ⟨rfl, hall⟩ | ⟨pre, post, hsplit, hlt2, hpre, hpost⟩
      · refine Or.inl ⟨rfl, ?_⟩
        intro x hx
        rcases List.mem_cons.mp hx with rfl | hx
        · exact not_lt.mp hlt
        · exact hall x hx
      · refine Or.inr ⟨s :: pre, post, by rw [hsplit, List.cons_append], hlt2, ?_, hpost⟩
        intro x hx
        rcases List.mem_cons.mp hx with rfl | hx
        · exact lt_of_lt_of_le hlt2 (not_lt.mp hlt)
        · exact hpre x hx

/-- C4: if the record holds no mouse-tracking sample, the lookup returns
`none`; otherwise the selected `closest` sample is a mouse-tracking
sample minimizing `|relative_time − time|`, and it is the earliest such
sample: everything before it in arrival order is strictly farther from
the query time, everything after it at least as far. -/
theorem get_mouse_position_c4 (lslData : List ParsedSample) (t : ℚ) :
    ((∀ x ∈ lslData, x.streamName ≠ "MadsPipeline_MouseTracking") →
      get_mouse_position_at_time lslData t = none ∧ findClosest lslData t = none) ∧
    ((∃ x ∈ lslData, x.streamName = "MadsPipeline_MouseTracking") →
      ∃ c pre post, findClosest lslData t = some c ∧
        lslData.filter (fun x => x.streamName == "MadsPipeline_MouseTracking") =
          pre ++ c :: post ∧
        (∀ x ∈ pre, |c.relativeTime - t| < |x.relativeTime - t|) ∧
        (∀ x ∈ post, |c.relativeTime - t| ≤ |x.relativeTime - t|)) := by
  constructor
  · intro hno
    have hnil : lslData.filter
        (fun x => x.streamName == "MadsPipeline_MouseTracking") = [] := by
      rw [List.filter_eq_nil_iff]
      intro a ha
      simpa using hno a ha
    have hfc : findClosest lslData t = none := by
      unfold findClosest
      rw [foldl_stepClosest_filter, hnil]
      rfl
    refine ⟨?_, hfc⟩
    unfold get_mouse_position_at_time
    rw [hfc]
  · rintro ⟨x, hx, hname⟩
    have hxf : x ∈ lslData.filter
        (fun x => x.streamName == "MadsPipeline_MouseTracking") :=
      List.mem_filter.mpr ⟨hx, by simpa using hname⟩
    rcases hfil : lslData.filter
        (fun x => x.streamName == "MadsPipeline_MouseTracking") with _ | ⟨c0, m'⟩
    · rw [hfil] at hxf
      exact absurd hxf (List.not_mem_nil x)
    · have hc0 : (c0.streamName == "MadsPipeline_MouseTracking") = true := by
        have : c0 ∈ lslData.filter
            (fun x => x.streamName == "MadsPipeline_MouseTracking") := by
          rw [hfil]; exact List.mem_cons_self c0 m'
        exact (List.mem_filter.mp this).2
      have hm' : ∀ y ∈ m', (y.streamName == "MadsPipeline_MouseTracking") = true := by
        intro y hy
        have : y ∈ lslData.filter
            (fun x => x.streamName == "MadsPipeline_MouseTracking") := by
          rw [hfil]; exact List.mem_cons_of_mem c0 hy
        exact (List.mem_filter.mp this).2
      have hfold0 : lslData.foldl (stepClosest t) none =
          m'.foldl (stepClosest t) (some (c0, |c0.relativeTime - t|)) := by
        rw [foldl_stepClosest_filter, hfil, List.foldl_cons]
        congr 1
        unfold stepClosest
        rw [if_pos hc0]
      obtain ⟨c', hfold, hcase⟩ := foldl_stepClosest_char t m' c0 hm'
      have hfc : findClosest lslData t = some c' := by
        unfold findClosest
        rw [hfold0, hfold]
        rfl
      rcases hcase with ⟨rfl, hall⟩ | ⟨pre, post, hsplit, hlt2, hpre, hpost⟩
      · exact ⟨c', [], m', hfc, by rw [hfil, List.nil_append], by simp, hall⟩
      · refine ⟨c', c0 :: pre, post, hfc, by rw [hfil, hsplit, List.cons_append], ?_, hpost⟩
        intro y hy
        rcases List.mem_cons.mp hy with rfl | hy
        · exact hlt2
        · exact hpre y hy

/-- C4 witness: the equidistant scenario — samples at relative times
`0.2` and `0.4` queried at `0.3` select the earlier sample. -/
theorem get_mouse_position_c4_witness :
    ∃ c pre post,
      findClosest [mouseSample (2/10), mouseSample (4/10)] (3/10) = some c ∧
      ([mouseSample (2/10), mouseSample (4/10)].filter
          (fun x => x.streamName == "MadsPipeline_MouseTracking")) = pre ++ c :: post ∧
      (∀ x ∈ pre, |c.relativeTime - 3/10| < |x.relativeTime - 3/10|) ∧
      (∀ x ∈ post, |c.relativeTime - 3/10| ≤ |x.relativeTime - 3/10|) :=
  (get_mouse_position_c4 [mouseSample (2/10), mouseSample (4/10)] (3/10)).2
    ⟨mouseSample (2/10), List.mem_cons_self _ _, rfl⟩

/-- Every sample a tick records for inlet `i` carries stream index `i`. -/
theorem tickEntry_streamIndex (st : RecorderState) (pulls : List (Option PullResult))
    (j : Nat) (s : RecordedSample) (h : tickEntry st pulls j = some s) :
    s.streamIndex = j := by
  unfold tickEntry at h
  rcases hp : pullAt pulls j with _ | p <;> rw [hp] at h <;> dsimp only at h
  · exact Option.noConfusion h
  · by_cases ht : p.data.isTruthy = true
    · rw [if_pos ht] at h
      rw [← Option.some.inj h]
      rfl
    · rw [if_neg ht] at h
      exact Option.noConfusion h

/-- Filtering an index-tagged `filterMap` over `range n` by one index
picks out at most the entry produced at that index. -/
theorem filterMap_range_filter (i : Nat) (f : Nat → Option RecordedSample)
    (hf : ∀ j s, f j = some s → s.streamIndex = j) :
    ∀ n : Nat, ((List.range n).filterMap f).filter (fun s => s.streamIndex == i) =
      if i < n then (f i).toList else [] := by
  intro n
  induction n with
  | zero => rfl
  | succ n ih =>
    rw [List.range_succ, List.filterMap_append, List.filter_append, ih]
    have hlast : (List.filterMap f [n]).filter (fun s => s.streamIndex == i) =
        if i = n then (f n).toList else [] := by
      have hfm : List.filterMap f [n] = (f n).toList := by
        rw [List.filterMap_cons, List.filterMap_nil]
        rcases f n with _ | s <;> rfl
      rw [hfm]
      rcases hfn : f n with _ | s
      · rw [show (none : Option RecordedSample).toList = [] from rfl, List.filter_nil]
        split <;> rfl
      · have hsi : s.streamIndex = n := hf n s hfn
        by_cases hin : i = n
        · subst hin
          simp [hsi]
        · simp [hsi, hin, show n ≠ i from fun h => hin h.symm]
    rw [hlast]
    by_cases h1 : i < n
    · rw [if_pos h1, if_pos (Nat.lt_succ_of_lt h1), if_neg (Nat.ne_of_lt h1)]
      exact List.append_nil _
    · by_cases h2 : i = n
      · subst h2
        rw [if_neg h1, if_pos (Nat.lt_succ_self i), if_pos rfl]
        exact List.nil_append _
      · rw [if_neg h1, if_neg h2, if_neg (by omega)]
        rfl

/-- The stream-`i` part of one tick's appended samples. -/
theorem streamSamples_tickSamples (st : RecorderState) (pulls : List (Option PullResult))
    (i : Nat) :
    streamSamples i (tickSamples st pulls) =
      if i < st.inlets.length then (tickEntry st pulls i).toList else [] := by
  unfold streamSamples tickSamples
  exact filterMap_range_filter i (tickEntry st pulls)
    (tickEntry_streamIndex st pulls) st.inlets.length

/-- While recording, one tick appends its samples and changes nothing
else. -/
theorem record_sample_rec (st : RecorderState) (pulls : List (Option PullResult))
    (h : st.isRecording = true) :
    record_sample st pulls =
      { st with recordedData := st.recordedData ++ tickSamples st pulls } := by
  unfold record_sample
  rw [h]
  rfl

/-- The recorded-sample constructor reads only fields a tick never
changes. -/
theorem mkRecSample_update (st : RecorderState) (rd : List RecordedSample)
    (i : Nat) :
    mkRecSample { st with recordedData := rd } i = mkRecSample st i := rfl

/-- `List.filter` distributed over an append, stated for the stream
filter. -/
theorem streamSamples_append (i : Nat) (a b : List RecordedSample) :
    streamSamples i (a ++ b) = streamSamples i a ++ streamSamples i b := by
  unfold streamSamples
  rw [List.filter_append]

/-- A tick's appended samples do not depend on previously recorded
data. -/
theorem tickSamples_update (st : RecorderState) (rd : List RecordedSample)
    (pulls : List (Option PullResult)) :
    tickSamples { st with recordedData := rd } pulls = tickSamples st pulls := rfl

/-- `session_start_time` is fixed at start and never changed by the tick
loop. -/
theorem runTicks_sessionStartTime (ticks : List (List (Option PullResult))) :
    ∀ st : RecorderState, (runTicks st ticks).sessionStartTime = st.sessionStartTime := by
  induction ticks with
  | nil => intro st; rfl
  | cons tk ticks ih =>
    intro st
    rw [show runTicks st (tk :: ticks) = runTicks (record_sample st tk) ticks from rfl, ih]
    unfold record_sample
    split <;> rfl

/-- Characterization of a run: the stream-`i` samples recorded across the
ticks are exactly the truthy deliveries of inlet `i`, in tick order, each
stamped by `mkRecSample`. -/
theorem runTicks_streamSamples (ticks : List (List (Option PullResult))) (i : Nat) :
    ∀ st : RecorderState, st.isRecording = true →
    streamSamples i (runTicks st ticks).recordedData =
      streamSamples i st.recordedData ++
        (if i < st.inlets.length then
          ((pullSeq i ticks).filter (fun p => p.data.isTruthy)).map (mkRecSample st i)
        else []) := by
  induction ticks with
  | nil =>
    intro st _
    rw [show runTicks st [] = st from rfl]
    rcases Nat.lt_or_ge i st.inlets.length with h | h
    · rw [if_pos h]
      show streamSamples i st.recordedData = streamSamples i st.recordedData ++ []
      rw [List.append_nil]
    · rw [if_neg (Nat.not_lt.mpr h), List.append_nil]
  | cons tk ticks ih =>
    intro st h
    rw [show runTicks st (tk :: ticks) = runTicks (record_sample st tk) ticks from rfl,
      record_sample_rec st tk h,
      ih { st with recordedData := st.recordedData ++ tickSamples st tk } h]
    dsimp only
    rw [mkRecSample_update, streamSamples_append, streamSamples_tickSamples,
      List.append_assoc]
    congr 1
    have hseq : pullSeq i (tk :: ticks) =
        match pullAt tk i with
        | some p => p :: pullSeq i ticks
        | none => pullSeq i ticks := by
      unfold pullSeq
      rw [List.filterMap_cons]
      rcases pullAt tk i with _ | p <;> rfl
    by_cases hin : i < st.inlets.length
    · rw [if_pos hin, if_pos hin, if_pos hin, hseq]
      rcases hp : pullAt tk i with _ | p
      · have hte : tickEntry st tk i = none := by
          unfold tickEntry
          rw [hp]
        rw [hte]
        rfl
      · by_cases ht : p.data.isTruthy = true
        · have hte : tickEntry st tk i = some (mkRecSample st i p) := by
            unfold tickEntry
            rw [hp]
            dsimp only
            rw [if_pos ht]
          rw [hte, List.filter_cons, if_pos (by simpa using ht), List.map_cons]
          rfl
        · have hte : tickEntry st tk i = none := by
            unfold tickEntry
            rw [hp]
            dsimp only
            rw [if_neg ht]
          rw [hte, List.filter_cons, if_neg (by simpa using ht)]
          rfl
    · rw [if_neg hin, if_neg hin, if_neg hin]
      rfl

/-- `relative_time` is a monotone function of the pulled timestamp, for
every fixed session start value (including the `None`/`0.0` fallback). -/
theorem relTime_mono (sst : Option ℚ) {a b : ℚ} (h : a ≤ b) :
    relTime sst a ≤ relTime sst b := by
  unfold relTime
  rcases sst with _ | s
  · exact le_refl 0
  · dsimp only
    by_cases hs : s = 0
    · rw [if_pos hs, if_pos hs]
    · rw [if_neg hs, if_neg hs]
      exact sub_le_sub_right h s

/-- C2: in a recording run starting from a freshly started recorder, if
inlet `i` delivers its samples with non-decreasing producer timestamps,
then the recorded samples of stream `i` have non-decreasing
`relative_time` in append order; and the run never changes the session
start timestamp fixed at start. -/
theorem record_sample_monotone_c2 (st : RecorderState)
    (ticks : List (List (Option PullResult))) (i : Nat)
    (hrd : st.recordedData = []) (hrec : st.isRecording = true)
    (hmono : List.Pairwise (fun p q => p.timestamp ≤ q.timestamp) (pullSeq i ticks)) :
    List.Pairwise (fun a b => a.relativeTime ≤ b.relativeTime)
      (streamSamples i (runTicks st ticks).recordedData) ∧
    (runTicks st ticks).sessionStartTime = st.sessionStartTime := by
  refine ⟨?_, runTicks_sessionStartTime ticks st⟩
  rw [runTicks_streamSamples ticks i st hrec, hrd]
  rw [show streamSamples i [] = [] from rfl, List.nil_append]
  by_cases hin : i < st.inlets.length
  · rw [if_pos hin]
    refine List.pairwise_map.mpr ?_
    have hsub : List.Pairwise (fun p q => p.timestamp ≤ q.timestamp)
        ((pullSeq i ticks).filter (fun p => p.data.isTruthy)) :=
      hmono.sublist (List.filter_sublist _)
    exact hsub.imp (fun h => relTime_mono st.sessionStartTime h)
  · rw [if_neg hin]
    exact List.Pairwise.nil

/-- A concrete truthy mouse-tracking delivery at timestamp `ts`. -/
def witnessPull (ts : ℚ) : PullResult :=
  { data := .nums [1, 2, 0]
    timestamp := ts
    clockOffset := 0
    localTime := ts
    recordedAt := "t" }

/-- C2 witness: a recorder started on one stream, two ticks delivering
timestamps `11` then `12` on inlet `0`. -/
theorem record_sample_monotone_c2_witness :
    List.Pairwise (fun a b => a.relativeTime ≤ b.relativeTime)
      (streamSamples 0 (runTicks
        (start_recording (initRecorder "s1")
          [⟨"MadsPipeline_MouseTracking", "Mouse", 3, "m"⟩] none 10)
        [[some (witnessPull 11)], [some (witnessPull 12)]]).recordedData) ∧
    (runTicks
        (start_recording (initRecorder "s1")
          [⟨"MadsPipeline_MouseTracking", "Mouse", 3, "m"⟩] none 10)
        [[some (witnessPull 11)], [some (witnessPull 12)]]).sessionStartTime =
      (start_recording (initRecorder "s1")
        [⟨"MadsPipeline_MouseTracking", "Mouse", 3, "m"⟩] none 10).sessionStartTime :=
  record_sample_monotone_c2
    (start_recording (initRecorder "s1")
      [⟨"MadsPipeline_MouseTracking", "Mouse", 3, "m"⟩] none 10)
    [[some (witnessPull 11)], [some (witnessPull 12)]] 0 rfl rfl
    (by
      rw [show pullSeq 0 [[some (witnessPull 11)], [some (witnessPull 12)]] =
          [witnessPull 11, witnessPull 12] from rfl]
      refine List.Pairwise.cons ?_ (List.Pairwise.cons (by simp) List.Pairwise.nil)
      intro q hq
      rcases List.mem_singleton.mp hq with rfl
      show (11 : ℚ) ≤ 12
      norm_num)

end MadsPi
